import Mathlib

/-!
Verification of the MageBattle lobby server.

Shallow embedding of the server's player registry and the Lobby actor's
message handlers, translated from:
  - src/shared/src/lib.rs        (message schema)
  - src/server/src/gameserver.rs (User, GameServerState)
  - src/server/src/actors/lobby.rs (NewUser handler, user_message dispatch)
  - src/server/src/main.rs       (user_connected disconnect cleanup)

Modelling conventions: `Uuid` and channel handles are `Nat`; the
`HashMap<Uuid, User>` is an association list in insertion order (HashMap
iteration order is unspecified, so the list order is one admissible
schedule); `send_msg(&tx, &msg)` is recorded as a pair `(tx, msg)` in an
output list; `Uuid::new_v4()` is a parameter carrying the freshly drawn
id; a `todo!()` stub is `Except.error ()` (panic), normal termination is
`Except.ok`.
-/

/-- Model of `uuid::Uuid` (128-bit random id), as `Nat`. -/
abbrev Uuid := Nat

/-- Model of an `OutBoundChannel` handle (the `tx` side of a connection), as `Nat`. -/
abbrev Channel := Nat

/-- The `User` record from src/server/src/gameserver.rs. -/
structure User where
  tx : Channel
  in_game : Bool
  name : String
deriving DecidableEq, Repr

/-- The `GameServerState` record from src/server/src/gameserver.rs: the
`HashMap<Uuid, User>` registry, as an association list. -/
structure GameServerState where
  users : List (Uuid × User)
deriving DecidableEq, Repr

/-- The `ServerMessage` enum from src/shared/src/lib.rs. -/
inductive ServerMessage where
  | Welcome (id : Uuid)
  | InvalidMessage
  | PlayerJoined (id : Uuid) (name : String)
  | GoodBye (id : Uuid)
  | PlayerChangedName (id : Uuid) (new_name : String)
  | NameNotAvailable
  | Update (spawns : Nat)
  | Finish (enemy_kills : Nat)
  | ChallengeReceived (request_id : Uuid) (name : String)
  | ChallengeDenied (request_id : Uuid)
  | RequestReceived (request_id : Uuid)
deriving DecidableEq, Repr

/-- The `ClientMessage` enum from src/shared/src/lib.rs. -/
inductive ClientMessage where
  | Connect (name : String)
  | GetPlayers
  | Disconnect (uid : Uuid)
  | ChangeName (uid : Uuid) (name : String)
  | ChallengePlayer (uid : Uuid) (name : String)
  | AcceptChallenge (uid : Uuid) (request_id : Uuid)
  | DenyChallenge (uid : Uuid) (request_id : Uuid)
  | State (uid : Uuid) (kills : Nat)
deriving DecidableEq, Repr

/-- One recorded `send_msg(&tx, &msg)` call: the target channel and the message. -/
abbrev Send := Channel × ServerMessage

/-- Model of `str::to_lowercase()`: lowercase every character (structural recursion
over the character list, so it evaluates inside proofs; the names exercised
here are ASCII, where this agrees with Rust's Unicode lowercasing). -/
def to_lowercase (s : String) : String := ⟨s.data.map Char.toLower⟩

/-- Model of `HashMap::insert`: replace the value at an existing key, otherwise add
the entry (at the end, one admissible iteration order). -/
def insertUser (users : List (Uuid × User)) (k : Uuid) (v : User) : List (Uuid × User) :=
  if users.any (fun p => p.1 == k) then
    users.map (fun p => if p.1 == k then (k, v) else p)
  else
    users ++ [(k, v)]

/-- Model of `HashMap::remove(&k)`: drop the entry keyed `k`. -/
def eraseUser (users : List (Uuid × User)) (k : Uuid) : List (Uuid × User) :=
  users.filter (fun p => p.1 != k)

/-- The `broadcast` helper from src/server/src/main.rs: `send_msg` to every
registered user's channel. -/
def broadcast (gs : GameServerState) (msg : ServerMessage) : List Send :=
  gs.users.map (fun p => (p.2.tx, msg))

/-- The `Handler<NewUser>::handle` body from src/server/src/actors/lobby.rs (lines
28-72). `freshId` is the `Uuid::new_v4()` draw. Returns the handler's
`Result<Uuid, User>`, the updated registry, and the sends issued. -/
def handleNewUser (freshId : Uuid) (new_user : User) (gs : GameServerState) :
    Except User Uuid × GameServerState × List Send :=
  match gs.users.find? (fun p => p.2.name == new_user.name) with
  | some _ => (Except.error new_user, gs, [])
  | none =>
    let users2 := insertUser gs.users freshId new_user
    let bsends := users2.map (fun p => (p.2.tx, ServerMessage.PlayerJoined freshId new_user.name))
    match users2.find? (fun p => to_lowercase p.2.name == to_lowercase new_user.name) with
    | some (uid, u) =>
      let roster := (users2.filter (fun p => p.1 != uid)).map
        (fun p => (u.tx, ServerMessage.PlayerJoined p.1 p.2.name))
      (Except.ok freshId, ⟨users2⟩, bsends ++ roster)
    | none => (Except.ok freshId, ⟨users2⟩, bsends)

/-- The `user_message` dispatcher from src/server/src/actors/lobby.rs (lines 83-147).
`freshId` is the `Uuid::new_v4()` draw used by `ChallengePlayer`;
`Except.error ()` models a `todo!()` panic. -/
def user_message (msg : ClientMessage) (id : Uuid) (gs : GameServerState) (freshId : Uuid) :
    Except Unit (GameServerState × List Send) :=
  match msg with
  | ClientMessage.Connect _ => Except.ok (gs, [])
  | ClientMessage.GetPlayers =>
    match gs.users.find? (fun p => id == p.1) with
    | some (uid, u) =>
      Except.ok (gs, (gs.users.filter (fun p => p.1 != uid)).map
        (fun p => (u.tx, ServerMessage.PlayerJoined p.1 p.2.name)))
    | none => Except.ok (gs, [])
  | ClientMessage.ChangeName _ name =>
    if (gs.users.find? (fun p => to_lowercase p.2.name == to_lowercase name)).isSome then
      match gs.users.find? (fun p => p.1 == id) with
      | some (_, player) => Except.ok (gs, [(player.tx, ServerMessage.NameNotAvailable)])
      | none => Except.ok (gs, [])
    else
      Except.ok (gs, broadcast gs (ServerMessage.PlayerChangedName id name))
  | ClientMessage.ChallengePlayer _ name =>
    match gs.users.find? (fun p => to_lowercase p.2.name == to_lowercase name) with
    | some (_, player) =>
      Except.ok (gs, [(player.tx, ServerMessage.ChallengeReceived freshId player.name),
                      (player.tx, ServerMessage.RequestReceived freshId)])
    | none => Except.ok (gs, [])
  | ClientMessage.AcceptChallenge _ _ => Except.error ()
  | ClientMessage.DenyChallenge _ _ => Except.error ()
  | ClientMessage.State _ _ => Except.error ()
  | ClientMessage.Disconnect uid => Except.ok (⟨eraseUser gs.users uid⟩, [])

/-- Tail of `user_connected` in src/server/src/main.rs (lines 101-105): when
the websocket stream ends, remove the player and broadcast `GoodBye(my_id)`
over the registry as it stands after the removal. -/
def disconnect_cleanup (my_id : Uuid) (gs : GameServerState) : GameServerState × List Send :=
  let gs2 : GameServerState := ⟨eraseUser gs.users my_id⟩
  (gs2, broadcast gs2 (ServerMessage.GoodBye my_id))

/-- One operation offered to the Lobby actor: a `NewUser` registration or a
dispatched `ClientMessageWrapper`. Each carries its `Uuid::new_v4()` draw. -/
inductive LobbyOp where
  | join (freshId : Uuid) (new_user : User)
  | dispatch (id : Uuid) (msg : ClientMessage) (freshId : Uuid)

/-- Effect of one Lobby operation on the registry; `Except.error` is a
`todo!()` panic (the actor dies, no further state is reached). -/
def applyOp (gs : GameServerState) : LobbyOp → Except Unit GameServerState
  | LobbyOp.join f u => Except.ok (handleNewUser f u gs).2.1
  | LobbyOp.dispatch id m f => (user_message m id gs f).map Prod.fst

/-- Run a sequence of Lobby operations from a given registry. -/
def runFrom (gs : GameServerState) (ops : List LobbyOp) : Except Unit GameServerState :=
  ops.foldlM applyOp gs

/-- Run a sequence of Lobby operations from the empty registry. -/
def runOps (ops : List LobbyOp) : Except Unit GameServerState :=
  runFrom ⟨[]⟩ ops

/-- No two simultaneously-registered players have equal names (exact comparison). -/
def ExactUniqueNames (gs : GameServerState) : Prop :=
  gs.users.Pairwise (fun a b => a.2.name ≠ b.2.name)

/-- No two simultaneously-registered players have names equal under
case-insensitive comparison. -/
def CaseInsensUniqueNames (gs : GameServerState) : Prop :=
  gs.users.Pairwise (fun a b => to_lowercase a.2.name ≠ to_lowercase b.2.name)

/-- Registry keys are pairwise distinct. -/
def UniqueKeys (gs : GameServerState) : Prop :=
  gs.users.Pairwise (fun a b => a.1 ≠ b.1)

instance (gs : GameServerState) : Decidable (ExactUniqueNames gs) :=
  inferInstanceAs (Decidable (List.Pairwise _ _))

instance (gs : GameServerState) : Decidable (CaseInsensUniqueNames gs) :=
  inferInstanceAs (Decidable (List.Pairwise _ _))

instance (gs : GameServerState) : Decidable (UniqueKeys gs) :=
  inferInstanceAs (Decidable (List.Pairwise _ _))

/-- A one-player registry: id 1, channel 10, name "alice". -/
def regAlice : GameServerState := ⟨[(1, ⟨10, false, "alice"⟩)]⟩

/-- A two-player registry: (1, "alice") on channel 10 and (2, "bob") on channel 20. -/
def regAliceBob : GameServerState := ⟨[(1, ⟨10, false, "alice"⟩), (2, (⟨20, false, "bob"⟩ : User))]⟩

/-- C10: `Disconnect` removal is keyed solely by the message payload `uid`,
never by the sender `id`: for every sender and every payload uid the handler
removes exactly the entry keyed `uid` and sends nothing, and afterwards no
entry keyed `uid` remains. -/
theorem disconnect_removes_by_payload_uid (gs : GameServerState) (id uid f : Uuid) :
    user_message (ClientMessage.Disconnect uid) id gs f
      = Except.ok (⟨gs.users.filter (fun p => p.1 != uid)⟩, []) ∧
    (user_message (ClientMessage.Disconnect uid) id gs f).map
        (fun r => r.1.users.any (fun p => p.1 == uid)) = Except.ok false := by
  constructor
  · rfl
  · simp only [user_message, eraseUser, Except.map]
    simp [List.any_eq_true]

/-- C8 counterexample: dispatching a `State` message on a concrete registry
does not terminate normally — it hits the `todo!()` stub (modelled as
`Except.error`), refuting the claim that it is a non-panicking no-op. -/
theorem state_message_panics_cex :
    user_message (ClientMessage.State 1 0) 1 regAlice 0 = Except.error () := rfl

/-- C8 amended: dispatching `State{uid, kills}` hits an unimplemented
`todo!()` stub — the handler panics instead of terminating normally; the
panic happens before any send or registry mutation, so no message is sent
and nothing is mutated by the operation. -/
theorem state_message_panics (gs : GameServerState) (id uid f : Uuid) (kills : Nat) :
    user_message (ClientMessage.State uid kills) id gs f = Except.error () := rfl

/-- C2 evaluated at the failing input: with only player 1 named "alice"
registered, `ChangeName` to the available name "bob" broadcasts
`PlayerChangedName{1, "bob"}` yet leaves the registry entry's name "alice" —
the rename is never applied to the registry. -/
theorem changename_no_mutation_codebug :
    user_message (ClientMessage.ChangeName 1 "bob") 1 regAlice 99
      = Except.ok (regAlice, [(10, ServerMessage.PlayerChangedName 1 "bob")]) ∧
    (regAlice.users.find? (fun p => p.1 == 1)).map (fun p => p.2.name) = some "alice" := by
  exact ⟨rfl, rfl⟩

/-- C3 counterexample: with players 1 and 2 registered, an explicit
`Disconnect{1}` removes player 1 but sends nothing at all — the remaining
player 2 never receives a `GoodBye{1}`, refuting the claim for the
explicit-message path. -/
theorem explicit_disconnect_goodbye_cex :
    user_message (ClientMessage.Disconnect 1) 1 regAliceBob 7
      = Except.ok (⟨[(2, (⟨20, false, "bob"⟩ : User))]⟩, []) := rfl

/-- C3 amended: the two disconnect paths differ. The explicit `Disconnect`
message removes the entry keyed `uid` and broadcasts nothing; only the
connection adapter's end-of-stream cleanup (`user_connected` in main.rs)
removes the player and then broadcasts `GoodBye{id}` over the remaining
registry, so each remaining player receives exactly one `GoodBye{id}`. -/
theorem disconnect_paths_behavior (gs : GameServerState) (id uid my_id f : Uuid) :
    user_message (ClientMessage.Disconnect uid) id gs f
      = Except.ok (⟨gs.users.filter (fun p => p.1 != uid)⟩, []) ∧
    disconnect_cleanup my_id gs
      = (⟨gs.users.filter (fun p => p.1 != my_id)⟩,
         (gs.users.filter (fun p => p.1 != my_id)).map
           (fun p => (p.2.tx, ServerMessage.GoodBye my_id))) := by
  exact ⟨rfl, rfl⟩

/-- C6 counterexample: "alice" (player 1) challenges "bob" (player 2).
The target receives `ChallengeReceived{7, "bob"}` — the name field carries
the target's own name, not the challenger's name "alice" as claimed. -/
theorem challenge_name_field_cex :
    user_message (ClientMessage.ChallengePlayer 1 "bob") 1 regAliceBob 7
      = Except.ok (regAliceBob,
          [(20, ServerMessage.ChallengeReceived 7 "bob"),
           (20, ServerMessage.RequestReceived 7)]) ∧
    (20, ServerMessage.ChallengeReceived 7 "alice") ∉
      [(20, ServerMessage.ChallengeReceived 7 "bob"),
       (20, ServerMessage.RequestReceived 7)] := by
  exact ⟨rfl, by decide⟩

/-- C6 amended: when `ChallengePlayer{name}` finds a registered player whose
name matches case-insensitively, that target's channel receives exactly two
messages sharing the one freshly generated request id —
`ChallengeReceived{request_id, name}` where the name field is the TARGET's
own name, and `RequestReceived{request_id}` — no other channel receives
anything and the registry is unchanged. -/
theorem challenge_target_unicasts (gs : GameServerState) (id w f tuid : Uuid)
    (name : String) (target : User)
    (h : gs.users.find? (fun p => to_lowercase p.2.name == to_lowercase name)
           = some (tuid, target)) :
    user_message (ClientMessage.ChallengePlayer w name) id gs f
      = Except.ok (gs, [(target.tx, ServerMessage.ChallengeReceived f target.name),
                        (target.tx, ServerMessage.RequestReceived f)]) := by
  simp only [user_message, h]

/-- Witness for `challenge_target_unicasts` at the concrete two-player registry. -/
theorem challenge_target_unicasts_witness :
    user_message (ClientMessage.ChallengePlayer 1 "BOB") 1 regAliceBob 7
      = Except.ok (regAliceBob,
          [(20, ServerMessage.ChallengeReceived 7 "bob"),
           (20, ServerMessage.RequestReceived 7)]) :=
  challenge_target_unicasts regAliceBob 1 1 7 2 "BOB" ⟨20, false, "bob"⟩ rfl

/-- C1 counterexample: the claimed case-insensitive uniqueness invariant is
refuted by the two-operation run Join("alice") then Join("Alice") from the
empty registry — the Join duplicate scan compares exactly, so both players
end up simultaneously registered with case-insensitively equal names. -/
theorem join_case_insensitive_uniqueness_cex :
    ¬ (∀ (ops : List LobbyOp) (gs : GameServerState),
        runOps ops = Except.ok gs → CaseInsensUniqueNames gs) := by
  intro hclaim
  exact absurd
    (hclaim [LobbyOp.join 1 ⟨10, false, "alice"⟩, LobbyOp.join 2 ⟨20, false, "Alice"⟩]
      ⟨[(1, ⟨10, false, "alice"⟩), (2, ⟨20, false, "Alice"⟩)]⟩ rfl)
    (by decide)

/-- C7 counterexample: player 1 ("alice") is the only registered player and
renames to "ALICE". No player other than the caller matches the new name
case-insensitively, yet the caller is sent `NameNotAvailable` — the
collision scan includes the caller's own entry. -/
theorem changename_self_match_cex :
    user_message (ClientMessage.ChangeName 1 "ALICE") 1 regAlice 9
      = Except.ok (regAlice, [(10, ServerMessage.NameNotAvailable)]) ∧
    (regAlice.users.filter (fun p => p.1 != 1)).all
        (fun q => to_lowercase q.2.name != to_lowercase "ALICE") = true :=
  ⟨rfl, by decide⟩

/-- C7 amended: for a registered caller, `ChangeName{newName}` answers with a
`NameNotAvailable` unicast to the caller only (and leaves the registry
unchanged) exactly when some registered player — possibly the caller
themselves — has a name case-insensitively equal to `newName`; a caller
whose own current name is the only case-insensitive match IS rejected. -/
theorem changename_rejection_condition (gs : GameServerState) (id w f : Uuid)
    (name : String) (u : User)
    (hc : gs.users.find? (fun p => p.1 == id) = some (id, u)) :
    user_message (ClientMessage.ChangeName w name) id gs f
        = Except.ok (gs, [(u.tx, ServerMessage.NameNotAvailable)])
      ↔ ∃ q ∈ gs.users, to_lowercase q.2.name = to_lowercase name := by
  constructor
  · intro heq
    by_cases hcond :
        (gs.users.find? (fun p => to_lowercase p.2.name == to_lowercase name)).isSome = true
    · obtain ⟨q, hq, hqe⟩ := List.find?_isSome.mp hcond
      exact ⟨q, hq, by simpa using hqe⟩
    · rw [user_message] at heq
      rw [if_neg hcond] at heq
      have hmem : (u.tx, ServerMessage.NameNotAvailable)
          ∈ broadcast gs (ServerMessage.PlayerChangedName id name) := by
        have hs : broadcast gs (ServerMessage.PlayerChangedName id name)
            = [(u.tx, ServerMessage.NameNotAvailable)] := by
          have := (Except.ok.injEq _ _).mp heq
          exact (Prod.mk.injEq _ _ _ _).mp this |>.2
        rw [hs]; exact List.mem_singleton.mpr rfl
      obtain ⟨p, _, hpe⟩ := List.mem_map.mp hmem
      exact absurd ((Prod.mk.injEq _ _ _ _).mp hpe).2 (by simp)
  · intro ⟨q, hq, hql⟩
    have hcond :
        (gs.users.find? (fun p => to_lowercase p.2.name == to_lowercase name)).isSome = true :=
      List.find?_isSome.mpr ⟨q, hq, by simpa using hql⟩
    rw [user_message, if_pos hcond, hc]

/-- Witness for `changename_rejection_condition`: the sole player "alice"
renaming to "ALICE" is answered `NameNotAvailable`. -/
theorem changename_rejection_condition_witness :
    user_message (ClientMessage.ChangeName 1 "ALICE") 1 regAlice 3
      = Except.ok (regAlice, [(10, ServerMessage.NameNotAvailable)]) :=
  (changename_rejection_condition regAlice 1 1 3 "ALICE" ⟨10, false, "alice"⟩ rfl).mpr
    ⟨(1, ⟨10, false, "alice"⟩), by decide, by decide⟩

/-- C4: atomic rejection. A `NewUser` registration that is rejected leaves
the registry exactly as it was, performs no sends, and hands the candidate's
name back in the rejection; a `ChangeName` answered with `NameNotAvailable`
also leaves the registry exactly unchanged. -/
theorem atomic_rejection :
    (∀ (gs : GameServerState) (freshId : Uuid) (nu rejected : User),
        (handleNewUser freshId nu gs).1 = Except.error rejected →
          (handleNewUser freshId nu gs).2.1 = gs ∧
          (handleNewUser freshId nu gs).2.2 = [] ∧ rejected.name = nu.name) ∧
    (∀ (gs gs2 : GameServerState) (w id f : Uuid) (name : String) (sends : List Send),
        user_message (ClientMessage.ChangeName w name) id gs f = Except.ok (gs2, sends) →
        ServerMessage.NameNotAvailable ∈ sends.map Prod.snd →
          gs2 = gs) := by
  constructor
  · intro gs freshId nu rejected hrej
    cases hfind : gs.users.find? (fun p => p.2.name == nu.name) with
    | some q =>
      have hh : handleNewUser freshId nu gs = (Except.error nu, gs, []) := by
        unfold handleNewUser
        rw [hfind]
      rw [hh] at hrej ⊢
      have hne : nu = rejected := by
        injection hrej
      exact ⟨rfl, rfl, by rw [← hne]⟩
    | none =>
      exfalso
      have hh1 : (handleNewUser freshId nu gs).1 = Except.ok freshId := by
        simp only [handleNewUser, hfind]
        split <;> rfl
      rw [hh1] at hrej
      exact Except.noConfusion hrej
  · intro gs gs2 w id f name sends heq _
    simp only [user_message] at heq
    revert heq
    split
    · split <;> intro heq <;>
        · injection heq with h
          injection h with h1 h2
          exact h1.symm
    · intro heq
      injection heq with h
      injection h with h1 h2
      exact h1.symm

/-- Witness for `atomic_rejection`: a duplicate-name Join against the
"alice" registry is rejected without touching the registry, and the
self-collision rename "ALICE" leaves the registry unchanged. -/
theorem atomic_rejection_witness :
    ((handleNewUser 5 ⟨20, false, "alice"⟩ regAlice).2.1 = regAlice ∧
     (handleNewUser 5 ⟨20, false, "alice"⟩ regAlice).2.2 = [] ∧
     User.name ⟨20, false, "alice"⟩ = User.name ⟨20, false, "alice"⟩) ∧
    regAlice = regAlice :=
  ⟨atomic_rejection.1 regAlice 5 ⟨20, false, "alice"⟩ ⟨20, false, "alice"⟩ rfl,
   atomic_rejection.2 regAlice regAlice 1 1 9 "ALICE"
     [(10, ServerMessage.NameNotAvailable)] rfl (by decide)⟩

/-- C9: the read-only dispatch frame. `Connect`, `GetPlayers`,
`ChallengePlayer` and `ChangeName` leave the users map exactly unchanged;
among all Lobby operations only `NewUser` registration can insert an entry
(otherwise the registry is untouched), `Disconnect` removes exactly the
entry keyed `uid`, and the remaining variants die in `todo!()` without any
registry effect. -/
theorem dispatch_frame (gs : GameServerState) (id f uid rid : Uuid)
    (nm : String) (k : Nat) (u : User) :
    ((user_message (ClientMessage.Connect nm) id gs f).map Prod.fst = Except.ok gs) ∧
    ((user_message ClientMessage.GetPlayers id gs f).map Prod.fst = Except.ok gs) ∧
    ((user_message (ClientMessage.ChallengePlayer uid nm) id gs f).map Prod.fst
      = Except.ok gs) ∧
    ((user_message (ClientMessage.ChangeName uid nm) id gs f).map Prod.fst
      = Except.ok gs) ∧
    ((handleNewUser f u gs).2.1 = gs ∨
      (handleNewUser f u gs).2.1 = ⟨insertUser gs.users f u⟩) ∧
    (user_message (ClientMessage.Disconnect uid) id gs f
      = Except.ok (⟨eraseUser gs.users uid⟩, [])) ∧
    (user_message (ClientMessage.AcceptChallenge uid rid) id gs f = Except.error ()) ∧
    (user_message (ClientMessage.DenyChallenge uid rid) id gs f = Except.error ()) ∧
    (user_message (ClientMessage.State uid k) id gs f = Except.error ()) := by
  refine ⟨rfl, ?_, ?_, ?_, ?_, rfl, rfl, rfl, rfl⟩
  · simp only [user_message]
    split <;> rfl
  · simp only [user_message]
    split <;> rfl
  · simp only [user_message]
    split
    · split <;> rfl
    · rfl
  · simp only [handleNewUser]
    split
    · exact Or.inl rfl
    · split <;> exact Or.inr rfl

/-- C5 counterexample: with "alice" registered, Join("Alice") satisfies the
claim's exact-comparison freshness hypothesis and succeeds, but the
post-insert roster scan matches case-insensitively and finds the OLD player
"alice" first, so the per-player roster unicast goes to channel 10 (old
alice) — the new player on channel 20 never receives
`PlayerJoined{1, "alice"}`. -/
theorem join_roster_unicast_cex :
    regAlice.users.all (fun q => q.2.name != "Alice") = true ∧
    handleNewUser 2 ⟨20, false, "Alice"⟩ regAlice
      = (Except.ok 2, ⟨[(1, ⟨10, false, "alice"⟩), (2, ⟨20, false, "Alice"⟩)]⟩,
         [(10, ServerMessage.PlayerJoined 2 "Alice"),
          (20, ServerMessage.PlayerJoined 2 "Alice"),
          (10, ServerMessage.PlayerJoined 2 "Alice")]) ∧
    (20, ServerMessage.PlayerJoined 1 "alice") ∉
      [(10, ServerMessage.PlayerJoined 2 "Alice"),
       (20, ServerMessage.PlayerJoined 2 "Alice"),
       (10, ServerMessage.PlayerJoined 2 "Alice")] :=
  ⟨by decide, rfl, by decide⟩

/-- C5 amended: when additionally no registered player's name is even
case-insensitively equal to the candidate name (and the drawn id is fresh),
Join succeeds exactly as claimed: the fresh id is returned, the registry
gains `Player{freshId, candidateName, handle, inGame = false}` (second
conjunct: looking up the fresh id yields it), `PlayerJoined{freshId,
candidateName}` goes to every registered player including the new one, and
the new player's channel additionally receives a
`PlayerJoined{otherId, otherName}` for every other registered player. -/
theorem join_success_behavior (gs : GameServerState) (freshId : Uuid)
    (h : Channel) (c : String)
    (hkey : ∀ q ∈ gs.users, q.1 ≠ freshId)
    (hci : ∀ q ∈ gs.users, to_lowercase q.2.name ≠ to_lowercase c) :
    handleNewUser freshId ⟨h, false, c⟩ gs
      = (Except.ok freshId, ⟨gs.users ++ [(freshId, (⟨h, false, c⟩ : User))]⟩,
         (gs.users ++ [(freshId, (⟨h, false, c⟩ : User))]).map
             (fun p => (p.2.tx, ServerMessage.PlayerJoined freshId c)) ++
           gs.users.map (fun p => (h, ServerMessage.PlayerJoined p.1 p.2.name))) ∧
    (gs.users ++ [(freshId, (⟨h, false, c⟩ : User))]).find? (fun p => p.1 == freshId)
      = some (freshId, (⟨h, false, c⟩ : User)) := by
  have hexact : gs.users.find? (fun p => p.2.name == (⟨h, false, c⟩ : User).name) = none := by
    rw [List.find?_eq_none]
    intro q hq
    simp only [Bool.not_eq_true, beq_eq_false_iff_ne]
    intro he
    exact hci q hq (by rw [he])
  have hany : gs.users.any (fun p => p.1 == freshId) = false := by
    simp only [List.any_eq_false, Bool.not_eq_true, beq_eq_false_iff_ne]
    exact hkey
  have hins : insertUser gs.users freshId ⟨h, false, c⟩
      = gs.users ++ [(freshId, (⟨h, false, c⟩ : User))] := by
    unfold insertUser
    rw [hany]
    simp
  have hlow : gs.users.find?
      (fun p => to_lowercase p.2.name == to_lowercase (⟨h, false, c⟩ : User).name) = none := by
    rw [List.find?_eq_none]
    intro q hq
    simp only [Bool.not_eq_true, beq_eq_false_iff_ne]
    exact hci q hq
  have hfil : gs.users.filter (fun p => p.1 != freshId) = gs.users :=
    List.filter_eq_self.mpr (fun a ha => by
      simp only [bne_iff_ne, ne_eq, decide_eq_true_eq]
      exact hkey a ha)
  have hkeyfind : gs.users.find? (fun p => p.1 == freshId) = none := by
    rw [List.find?_eq_none]
    intro q hq
    simp only [Bool.not_eq_true, beq_eq_false_iff_ne]
    exact hkey q hq
  constructor
  · simp only [handleNewUser, hexact, hins, List.find?_append, hlow, Option.none_or,
      List.find?_cons, List.filter_append, hfil]
    simp [hfil]
  · rw [List.find?_append, hkeyfind, Option.none_or]
    simp [List.find?_cons]

/-- Witness for `join_success_behavior`: "bob" joining the "alice" registry
with fresh id 2 and channel 20. -/
theorem join_success_behavior_witness :
    handleNewUser 2 ⟨20, false, "bob"⟩ regAlice
      = (Except.ok 2, ⟨regAlice.users ++ [(2, (⟨20, false, "bob"⟩ : User))]⟩,
         (regAlice.users ++ [(2, (⟨20, false, "bob"⟩ : User))]).map
             (fun p : Uuid × User => (p.2.tx, ServerMessage.PlayerJoined 2 "bob")) ++
           regAlice.users.map
             (fun p : Uuid × User => (20, ServerMessage.PlayerJoined p.1 p.2.name))) ∧
    (regAlice.users ++ [(2, (⟨20, false, "bob"⟩ : User))]).find? (fun p => p.1 == 2)
      = some (2, (⟨20, false, "bob"⟩ : User)) :=
  join_success_behavior regAlice 2 20 "bob" (by decide) (by decide)

/-- Replacing the value stored at key `k` never changes an entry's key. -/
theorem fst_replaceEntry (k : Uuid) (v : User) (p : Uuid × User) :
    (if p.1 == k then (k, v) else p).1 = p.1 := by
  split
  · next hc => exact (eq_of_beq hc).symm
  · rfl

/-- Key distinctness survives a `HashMap::insert` overwrite of key `k`. -/
theorem pairwise_keys_replaceEntry (k : Uuid) (v : User) (l : List (Uuid × User))
    (hk : l.Pairwise (fun a b => a.1 ≠ b.1)) :
    (l.map (fun p => if p.1 == k then (k, v) else p)).Pairwise (fun a b => a.1 ≠ b.1) := by
  rw [List.pairwise_map]
  refine hk.imp ?_
  intro a b hab
  rw [fst_replaceEntry, fst_replaceEntry]
  exact hab

/-- Name distinctness survives a `HashMap::insert` overwrite with a value
whose name occurs nowhere in the list, provided keys are distinct. -/
theorem pairwise_names_replaceEntry (k : Uuid) (v : User) :
    ∀ l : List (Uuid × User),
      (∀ q ∈ l, q.2.name ≠ v.name) →
      l.Pairwise (fun a b => a.2.name ≠ b.2.name) →
      l.Pairwise (fun a b => a.1 ≠ b.1) →
      (l.map (fun p => if p.1 == k then (k, v) else p)).Pairwise
        (fun a b => a.2.name ≠ b.2.name) := by
  intro l
  induction l with
  | nil => intro _ _ _; simp
  | cons p t ih =>
    intro hfresh hname hkey
    rw [List.pairwise_cons] at hname hkey
    rw [List.map_cons, List.pairwise_cons]
    refine ⟨?_, ih (fun q hq => hfresh q (List.mem_cons_of_mem p hq)) hname.2 hkey.2⟩
    intro b hb
    obtain ⟨q, hq, rfl⟩ := List.mem_map.mp hb
    by_cases hp : (p.1 == k) = true
    · have hqk : (q.1 == k) = false := by
        rw [beq_eq_false_iff_ne]
        intro hqe
        exact hkey.1 q hq (by rw [eq_of_beq hp, hqe])
      rw [if_pos hp, if_neg (by rw [hqk]; exact Bool.false_ne_true)]
      intro he
      exact hfresh q (List.mem_cons_of_mem p hq) he.symm
    · rw [if_neg hp]
      by_cases hqk : (q.1 == k) = true
      · rw [if_pos hqk]
        exact hfresh p (List.mem_cons_self p t)
      · rw [if_neg hqk]
        exact hname.1 q hq

/-- The combined registry invariant maintained by the Lobby: distinct keys
and exactly-distinct names. -/
def RegistryInv (gs : GameServerState) : Prop :=
  UniqueKeys gs ∧ ExactUniqueNames gs

/-- Inserting a user whose name occurs nowhere preserves the
registry invariant. -/
theorem registryInv_insertUser (gs : GameServerState) (k : Uuid) (v : User)
    (hfresh : ∀ q ∈ gs.users, q.2.name ≠ v.name) (h : RegistryInv gs) :
    RegistryInv ⟨insertUser gs.users k v⟩ := by
  obtain ⟨hk, hn⟩ := h
  rw [UniqueKeys] at hk
  rw [ExactUniqueNames] at hn
  constructor <;> rw [insertUser] <;> split
  · exact pairwise_keys_replaceEntry k v gs.users hk
  · next hany =>
    rw [UniqueKeys, List.pairwise_append]
    refine ⟨hk, by simp, ?_⟩
    intro a ha b hb
    rw [List.mem_singleton] at hb
    subst hb
    intro hae
    rw [List.any_eq_true] at hany
    exact hany ⟨a, ha, by rw [hae]; exact beq_self_eq_true k⟩
  · exact pairwise_names_replaceEntry k v gs.users hfresh hn hk
  · rw [ExactUniqueNames, List.pairwise_append]
    refine ⟨hn, by simp, ?_⟩
    intro a ha b hb
    rw [List.mem_singleton] at hb
    subst hb
    exact hfresh a ha

/-- A failed exact-name scan means the candidate's name occurs nowhere. -/
theorem find?_name_none (gs : GameServerState) (nu : User)
    (h : gs.users.find? (fun p => p.2.name == nu.name) = none) :
    ∀ q ∈ gs.users, q.2.name ≠ nu.name := by
  intro q hq
  have := List.find?_eq_none.mp h q hq
  simpa using this

/-- Every single Lobby operation preserves the registry invariant. -/
theorem registryInv_applyOp (gs gs2 : GameServerState) (op : LobbyOp)
    (h : RegistryInv gs) (he : applyOp gs op = Except.ok gs2) : RegistryInv gs2 := by
  cases op with
  | join f u =>
    have hgs2 : gs2 = (handleNewUser f u gs).2.1 := by
      rw [applyOp] at he
      injection he with h1
      exact h1.symm
    subst hgs2
    cases hfind : gs.users.find? (fun p => p.2.name == u.name) with
    | some q =>
      have hh : handleNewUser f u gs = (Except.error u, gs, []) := by
        unfold handleNewUser
        rw [hfind]
      rw [hh]
      exact h
    | none =>
      have hh : (handleNewUser f u gs).2.1 = ⟨insertUser gs.users f u⟩ := by
        simp only [handleNewUser, hfind]
        split <;> rfl
      rw [hh]
      exact registryInv_insertUser gs f u (find?_name_none gs u hfind) h
  | dispatch id m f =>
    cases m with
    | Connect n =>
      rw [applyOp, user_message] at he
      injection he with h1
      rw [← h1]
      exact h
    | GetPlayers =>
      rw [applyOp, user_message] at he
      revert he
      split <;> intro he <;> injection he with h1 <;> rw [← h1] <;> exact h
    | ChangeName w n =>
      rw [applyOp, user_message] at he
      revert he
      split
      · split <;> intro he <;> injection he with h1 <;> rw [← h1] <;> exact h
      · intro he
        injection he with h1
        rw [← h1]
        exact h
    | ChallengePlayer w n =>
      rw [applyOp, user_message] at he
      revert he
      split <;> intro he <;> injection he with h1 <;> rw [← h1] <;> exact h
    | AcceptChallenge w r =>
      rw [applyOp, user_message] at he
      exact Except.noConfusion he
    | DenyChallenge w r =>
      rw [applyOp, user_message] at he
      exact Except.noConfusion he
    | State w kl =>
      rw [applyOp, user_message] at he
      exact Except.noConfusion he
    | Disconnect uid =>
      rw [applyOp, user_message] at he
      injection he with h1
      rw [← h1]
      obtain ⟨hk, hn⟩ := h
      exact ⟨List.Pairwise.filter _ hk, List.Pairwise.filter _ hn⟩

/-- Running any operation sequence from an invariant-satisfying registry
lands in an invariant-satisfying registry. -/
theorem registryInv_runFrom :
    ∀ (ops : List LobbyOp) (gs gs2 : GameServerState),
      RegistryInv gs → runFrom gs ops = Except.ok gs2 → RegistryInv gs2 := by
  intro ops
  induction ops with
  | nil =>
    intro gs gs2 h he
    rw [runFrom, List.foldlM_nil] at he
    injection he with h1
    rw [← h1]
    exact h
  | cons op rest ih =>
    intro gs gs2 h he
    rw [runFrom, List.foldlM_cons] at he
    cases ha : applyOp gs op with
    | error e =>
      rw [ha] at he
      exact Except.noConfusion he
    | ok g1 =>
      rw [ha] at he
      exact ih g1 gs2 (registryInv_applyOp gs g1 op h ha) he

/-- C1 amended: for every sequence of Join (`NewUser`) and Dispatch
operations from the empty registry, no two simultaneously-registered
players ever have names equal under EXACT comparison — that is the
uniqueness the Join handler's exact-equality duplicate scan actually
maintains; case-insensitive uniqueness does not hold (a Join with a case
variant of a registered name is admitted). -/
theorem lobby_exact_unique_names_invariant (ops : List LobbyOp) (gs : GameServerState)
    (h : runOps ops = Except.ok gs) : ExactUniqueNames gs :=
  (registryInv_runFrom ops ⟨[]⟩ gs ⟨List.Pairwise.nil, List.Pairwise.nil⟩ h).2

/-- Witness for `lobby_exact_unique_names_invariant`: the run that joins
"alice" then "Alice" ends exactly-name-unique (though not case-insensitively
unique). -/
theorem lobby_exact_unique_names_invariant_witness :
    ExactUniqueNames ⟨[(1, ⟨10, false, "alice"⟩), (2, ⟨20, false, "Alice"⟩)]⟩ :=
  lobby_exact_unique_names_invariant
    [LobbyOp.join 1 ⟨10, false, "alice"⟩, LobbyOp.join 2 ⟨20, false, "Alice"⟩] _ rfl
